import Mathlib

/-!
Shallow embedding of the EE-tutor orchestration pipeline
(`modal_app.py`, `src/models/qwen_model.py`, `src/models/deepseek_model.py`,
`src/models/colpali_model.py`, `src/services/circuit_generator.py`)
together with proofs about the frozen spec claims.

External collaborators (HTTP transport, the vision/code models, `exec`,
matplotlib rendering, PDF rasterisation, the JSON library) are modelled as
explicit behaviour parameters; the repository's own control flow is
translated line by line.
-/

/- ### Readiness gate
Embeds the health-check loop that appears verbatim in both
`qwen_model.analyze_question_with_qwen_url` (lines 50-62) and
`deepseek_model.generate_circuit_code` (lines 49-61):

    for i in range(HEALTH_CHECK_MAX_RETRIES):
        try:
            with httpx.Client(...) as client:
                response = client.get("/health")
                if response.status_code == 200:
                    break
        except Exception as e:
            time.sleep(HEALTH_CHECK_SLEEP)
            if i == HEALTH_CHECK_MAX_RETRIES - 1:
                raise Exception("... failed to start")

One probe attempt either raises a transport error (`err`) or returns an
HTTP status code (`status c`). -/

/-- Outcome of a single liveness probe: a transport-level exception, or an
HTTP response with some status code. -/
inductive ProbeResult where
  | err : ProbeResult
  | status : Nat → ProbeResult
deriving DecidableEq, Repr

/-- How the health-check loop ends: `ready` (broke out on a 2xx=200 status),
`raisedUnavailable` (raised "server failed to start"), or `fellThrough`
(the `for` loop exhausted all iterations without `break` and without
raising, and control continued into the request code). -/
inductive GateOutcome where
  | ready : GateOutcome
  | raisedUnavailable : GateOutcome
  | fellThrough : GateOutcome
deriving DecidableEq, Repr

/-- Observable trace of one run of the health-check loop: how it ended, how
many probes were issued, and how many times `time.sleep` ran. -/
structure GateTrace where
  outcome : GateOutcome
  attempts : Nat
  sleeps : Nat
deriving DecidableEq, Repr

/-- The health-check loop, run on the list of probe results of the
`max_retries` loop iterations (element `i` is what iteration `i` would
observe).  A `status 200` breaks; any other status falls to the next
iteration with no sleep and no raise; a transport error sleeps and, on the
final iteration, raises. -/
def healthCheckLoop : List ProbeResult → GateTrace
  | [] => ⟨GateOutcome.fellThrough, 0, 0⟩
  | ProbeResult.status code :: rest =>
      if code = 200 then ⟨GateOutcome.ready, 1, 0⟩
      else
        let t := healthCheckLoop rest
        ⟨t.outcome, t.attempts + 1, t.sleeps⟩
  | ProbeResult.err :: rest =>
      match rest with
      | [] => ⟨GateOutcome.raisedUnavailable, 1, 1⟩
      | _ :: _ =>
          let t := healthCheckLoop rest
          ⟨t.outcome, t.attempts + 1, t.sleeps + 1⟩

/-- Whether a probe attempt observed the success status `200`. -/
def isSuccess : ProbeResult → Bool
  | ProbeResult.status code => code == 200
  | ProbeResult.err => false

/-- The readiness gate on an endpoint behaviour sequence `probe` with a
retry budget of `maxRetries`: runs the loop on the first `maxRetries`
probe outcomes. -/
def await_ready (probe : Nat → ProbeResult) (maxRetries : Nat) : GateTrace :=
  healthCheckLoop ((List.range maxRetries).map probe)

/- ### Base64 (models Python's `base64.b64encode(...).decode()`) -/

/-- The base64 alphabet. -/
def b64Table : List Char :=
  "ABCDEFGHIJKLMNOPQRSTUVWXYZabcdefghijklmnopqrstuvwxyz0123456789+/".toList

/-- The base64 digit for a 6-bit value. -/
def b64Char (n : Nat) : Char := b64Table.getD n 'A'

/-- Standard base64 encoding of a byte list (each `Nat` is one byte). -/
def b64encodeList : List Nat → List Char
  | [] => []
  | [a] => [b64Char (a / 4), b64Char (a % 4 * 16), '=', '=']
  | [a, b] => [b64Char (a / 4), b64Char (a % 4 * 16 + b / 16), b64Char (b % 16 * 4), '=']
  | a :: b :: c :: rest =>
      b64Char (a / 4) :: b64Char (a % 4 * 16 + b / 16) ::
      b64Char (b % 16 * 4 + c / 64) :: b64Char (c % 64) :: b64encodeList rest

/-- `base64.b64encode(bytes).decode()`. -/
def b64encode (bytes : List Nat) : String := ⟨b64encodeList bytes⟩

theorem b64encodeList_ne_nil {bytes : List Nat} (h : bytes ≠ []) :
    b64encodeList bytes ≠ [] := by
  match bytes with
  | [] => exact absurd rfl h
  | [a] => simp [b64encodeList]
  | [a, b] => simp [b64encodeList]
  | a :: b :: c :: rest => simp [b64encodeList]

theorem b64encode_ne_empty {bytes : List Nat} (h : bytes ≠ []) :
    b64encode bytes ≠ "" := by
  intro hcontra
  exact b64encodeList_ne_nil h (congrArg String.data hcontra)

/- ### Diagram compiler (`circuit_generator.run_generated_code`, lines 21-71)

The `exec` of model-generated text plus `plt.savefig` are the external
surface; their joint behaviour on a given program is a parameter.  The
matplotlib global figure state is tracked as a figure count: `exec` leaves
some count behind, `plt.close('all')` (success path only) resets it to 0. -/

/-- A Python exception as observed by the `except` block: `str(e)` and the
body that `traceback.format_exc()` prints under its header line. -/
structure PyExn where
  msg : String
  traceDetail : String
deriving DecidableEq, Repr

/-- `traceback.format_exc()`: header line plus the stack detail. -/
def formatExc (e : PyExn) : String :=
  "Traceback (most recent call last):\n" ++ e.traceDetail ++ e.msg

/-- Joint behaviour of `exec(code)` + `plt.savefig` on one program:
either everything completes, yielding captured stdout/stderr, the PNG
bytes written by `savefig`, and the number of live matplotlib figures
after execution; or some step raises, with the figure count at the point
of the exception. -/
inductive ExecBehavior where
  | completes (stdout stderr : String) (png : List Nat) (figs : Nat) : ExecBehavior
  | raises (e : PyExn) (figs : Nat) : ExecBehavior
deriving DecidableEq, Repr

/-- The structured record returned by `run_generated_code`.  Keys absent
from the Python dict are `none`. -/
structure DiagramResult where
  success : Bool
  image_base64 : Option String
  stdout : Option String
  stderr : Option String
  error : Option String
  traceback : Option String
  schemdraw_code : String
deriving DecidableEq, Repr

/-- `circuit_generator.run_generated_code`: executes the generated code,
on success base64-encodes the saved figure, calls `plt.close('all')` and
returns the success record; on any exception returns the failure record
(with `error` and `traceback`, no image and no captured streams) — note
that the `except` path performs no `plt.close`.  Returns the record
together with the number of live matplotlib figures after the call. -/
def run_generated_code (beh : String → ExecBehavior) (schemdraw_code : String) :
    DiagramResult × Nat :=
  match beh schemdraw_code with
  | ExecBehavior.completes out err png _figs =>
      ({ success := true
         image_base64 := some (b64encode png)
         stdout := some out
         stderr := some err
         error := none
         traceback := none
         schemdraw_code := schemdraw_code }, 0)
  | ExecBehavior.raises e figs =>
      ({ success := false
         image_base64 := none
         stdout := none
         stderr := none
         error := some ("Error executing schemdraw code: " ++ e.msg)
         traceback := some (formatExc e)
         schemdraw_code := schemdraw_code }, figs)

/- ### Retrieval engine (`colpali_model.ColPaliModel`)

Scores are modelled over `Int` (the similarity values only matter through
their linear order); page images over an arbitrary inhabited type. -/

/-- `colpali_model.get_top_k_pages`, lines 100-108, given the score list
(`scores[i]` is the score of page `i`; the scoring call itself is external):

    scored_indices = [(i, scores[i]) for i in range(len(scores))]
    scored_indices.sort(key=lambda x: x[1], reverse=True)
    top_k_indices = [idx for idx, score in scored_indices[:k]]
    return [images[i] for i in top_k_indices]

Python's `list.sort` is stable also under `reverse=True`, so it is modelled
by a stable merge sort under the descending comparison on the score
(`key=lambda x: x[1], reverse=True`). -/
def scoreLE : Nat × Int → Nat × Int → Bool := fun a b => decide (b.2 ≤ a.2)

/-- `colpali_model.get_top_k_pages` (see the section comment above). -/
def get_top_k_pages {Img : Type} [Inhabited Img]
    (scores : List Int) (images : List Img) (k : Nat) : List Img :=
  let scored_indices := scores.enum
  let sorted := scored_indices.mergeSort scoreLE
  let top_k_indices := (sorted.take k).map Prod.fst
  top_k_indices.map (fun i => images.get! i)

/-- The index list selected by `get_top_k_pages` before the final image
lookup, exposed for stating the ordering properties. -/
def topKIndices (scores : List Int) (k : Nat) : List Nat :=
  (((scores.enum).mergeSort scoreLE).take k).map Prod.fst

/-- Python's `range(i, n, step)` for `step > 0` (`range(0, len(images),
PDF_BATCH_SIZE)` in the source). -/
def rangeStepFrom (i n step : Nat) : List Nat :=
  if _h : i < n ∧ 0 < step then i :: rangeStepFrom (i + step) n step else []
termination_by n - i
decreasing_by omega

/-- The batch list `[images[i : i + B] for i in range(0, len(images), B)]`
of `index_pdf_from_bytes` line 59. -/
def makeBatches {Img : Type} (images : List Img) (B : Nat) : List (List Img) :=
  (rangeStepFrom 0 images.length B).map (fun i => (images.drop i).take B)

/-- `colpali_model.index_pdf_from_bytes`, lines 46-80.  `convert` models
`pdf2image.convert_from_bytes` (which may fail on a malformed document)
and `embed` models one forward pass of the ColPali model on a batch of
page images.  Embeddings of each batch are appended to the running list;
any exception is re-raised as "Failed to process PDF: ...". -/
def index_pdf_from_bytes {Img Emb : Type}
    (convert : List Nat → Except String (List Img))
    (embed : List Img → List Emb)
    (pdf_data : List Nat) (B : Nat) : Except String (List Emb × List Img) :=
  match convert pdf_data with
  | Except.error e => Except.error ("Failed to process PDF: " ++ e)
  | Except.ok images =>
      let batches := makeBatches images B
      let pdf_embeddings := batches.foldl (fun acc batch => acc ++ embed batch) []
      Except.ok (pdf_embeddings, images)

/- ### Reasoning stage (`qwen_model.analyze_question_with_qwen_url`, lines 45-101) -/

/-- One element of the `content` list of the chat message: a `"text"` part
or an inline `"image_url"` attachment. -/
inductive MsgPart where
  | text : String → MsgPart
  | imageUrl : String → MsgPart
deriving DecidableEq, Repr

/-- A context image as handed over by the retrieval engine: the base64 of
its PNG serialisation (the `img.save(buffered, format="PNG")` +
`b64encode` branch is external) and whether `hasattr(img, 'save')` holds
(true for every PIL page image). -/
structure CtxImage where
  pngB64 : String
  hasSave : Bool
deriving DecidableEq, Repr

/-- Lines 65-88: builds the `content` list of the single user message —
the instruction preamble with the question, one `image_url` part per
user-supplied base64 image, then (only when `context_images` is non-empty)
the separator text followed by one `image_url` part per PIL context
image.  Written as the source writes it: start from the text part and
append in loops. -/
def buildContent (instructions user_query : String) (user_images_b64 : List String)
    (context_images : List CtxImage) : List MsgPart :=
  let content := [MsgPart.text (instructions ++ "\n\nQuestion: " ++ user_query)]
  let content := user_images_b64.foldl
    (fun acc img_b64 => acc ++ [MsgPart.imageUrl ("data:image/png;base64," ++ img_b64)])
    content
  if context_images.isEmpty then content
  else
    let content := content ++ [MsgPart.text "\n\nRelevant textbook pages for reference:"]
    context_images.foldl
      (fun acc img =>
        if img.hasSave then
          acc ++ [MsgPart.imageUrl ("data:image/png;base64," ++ img.pngB64)]
        else acc)
      content

/-- `analyze_question_with_qwen_url`: runs the health-check loop on the
endpoint's probe behaviour, builds the single user message, issues one
completion request (`complete` maps the message content to the response's
choice texts) and returns `result["choices"][0]["message"]["content"]`;
an empty choice list is the IndexError the subscription would raise. -/
def analyze_question_with_qwen_url
    (probes : List ProbeResult) (complete : List MsgPart → List String)
    (instructions user_query : String) (user_images_b64 : List String)
    (context_images : List CtxImage) : Except String String :=
  if (healthCheckLoop probes).outcome = GateOutcome.raisedUnavailable then
    Except.error "Qwen server failed to start"
  else
    match complete (buildContent instructions user_query user_images_b64 context_images) with
    | [] => Except.error "IndexError: list index out of range"
    | c :: _ => Except.ok c

/- ### Code extraction (`deepseek_model.generate_circuit_code`, lines 86-115)

Python string primitives over `List Char`. -/

/-- The `'\x7b'` character. -/
def lbrace : Char := Char.ofNat 123

/-- The `'\x7d'` character. -/
def rbrace : Char := Char.ofNat 125

/-- Python `str.strip()`. -/
def pyStrip (s : List Char) : List Char :=
  ((s.dropWhile Char.isWhitespace).reverse.dropWhile Char.isWhitespace).reverse

/-- Python `str.find(sub)`: least index at which `sub` occurs, `-1` if it
does not occur. -/
def pyFind (s sub : List Char) : Int :=
  match (List.range (s.length + 1)).find? (fun i => sub.isPrefixOf (s.drop i)) with
  | some i => (i : Int)
  | none => -1

/-- Python `str.rfind(sub)`: greatest index at which `sub` occurs, `-1` if
it does not occur. -/
def pyRFind (s sub : List Char) : Int :=
  match (List.range (s.length + 1)).reverse.find? (fun i => sub.isPrefixOf (s.drop i)) with
  | some i => (i : Int)
  | none => -1

/-- Python `sub in s` for strings. -/
def pyContains (s sub : List Char) : Bool :=
  (List.range (s.length + 1)).any (fun i => sub.isPrefixOf (s.drop i))

/-- Python slice `s[a:b]` (for the non-negative indices used here). -/
def pySlice (s : List Char) (a b : Int) : List Char :=
  (s.drop a.toNat).take (b - a).toNat

/-- `content.strip().startswith('\x7b')` applied to an already-stripped list. -/
def startsWithLBrace : List Char → Bool
  | c :: _ => c = lbrace
  | [] => false

/-- The language-tagged fence marker ```python. -/
def pythonFence : List Char := "```python".toList

/-- The plain fence marker. -/
def fenceMarker : List Char := "```".toList

/-- Lines 102-113, the backtick-fence fallback:

    if "```python" in content:
        code_start = content.find("```python") + 9
        code_end = content.rfind("```")
        if code_end != -1 and code_end > code_start:
            content = content[code_start:code_end].strip()
    elif "```" in content:
        first_backticks = content.find("```")
        last_backticks = content.rfind("```")
        if first_backticks != -1 and last_backticks != -1 and last_backticks > first_backticks:
            content = content[first_backticks + 3:last_backticks].strip()
-/
def fenceFallback (content : List Char) : List Char :=
  if pyContains content pythonFence then
    let code_start := pyFind content pythonFence + 9
    let code_end := pyRFind content fenceMarker
    if code_end ≠ -1 ∧ code_end > code_start then
      pyStrip (pySlice content code_start code_end)
    else content
  else if pyContains content fenceMarker then
    let first_backticks := pyFind content fenceMarker
    let last_backticks := pyRFind content fenceMarker
    if first_backticks ≠ -1 ∧ last_backticks ≠ -1 ∧ last_backticks > first_backticks then
      pyStrip (pySlice content (first_backticks + 3) last_backticks)
    else content
  else content

/-- Lines 91-115, the full extraction policy.  `jsonLoads` models
`json.loads` restricted to flat string-valued objects (`none` both for a
JSONDecodeError — caught and falling through — and for the irrelevant
non-object results): when the stripped body starts with `'\x7b'` and the
parse yields an object containing `'code'`, that value is returned;
otherwise the fence fallback runs on the raw content. -/
def extractCode (jsonLoads : String → Option (List (String × String)))
    (content : String) : String :=
  let fromJson : Option String :=
    if startsWithLBrace (pyStrip content.toList) then
      match jsonLoads content with
      | some json_response => json_response.lookup "code"
      | none => none
    else none
  match fromJson with
  | some extracted_code => extracted_code
  | none => ⟨fenceFallback content.toList⟩

/- ### A concrete `json.loads` instance for flat string-valued objects,
used to evaluate the extraction fixtures. -/

/-- Drops leading JSON whitespace. -/
def skipWs : List Char → List Char
  | [] => []
  | c :: rest => if c.isWhitespace then skipWs rest else c :: rest

/-- Reads the body of a JSON string (after the opening quote), handling the
basic escapes; returns the string and the rest of the input. -/
def parseJStringAux : List Char → List Char → Option (String × List Char)
  | [], _ => none
  | '\\' :: esc :: rest, acc =>
      match esc with
      | '"' => parseJStringAux rest ('"' :: acc)
      | '\\' => parseJStringAux rest ('\\' :: acc)
      | '/' => parseJStringAux rest ('/' :: acc)
      | 'n' => parseJStringAux rest ('\n' :: acc)
      | 't' => parseJStringAux rest ('\t' :: acc)
      | 'r' => parseJStringAux rest ('\r' :: acc)
      | _ => none
  | '"' :: rest, acc => some (⟨acc.reverse⟩, rest)
  | c :: rest, acc => parseJStringAux rest (c :: acc)

/-- Reads a JSON string literal including its opening quote. -/
def parseJString : List Char → Option (String × List Char)
  | '"' :: rest => parseJStringAux rest []
  | _ => none

/-- Reads one `"key": "value"` member. -/
def parsePair (s : List Char) : Option ((String × String) × List Char) :=
  match parseJString (skipWs s) with
  | none => none
  | some (k, rest) =>
      match skipWs rest with
      | ':' :: rest2 =>
          match parseJString (skipWs rest2) with
          | none => none
          | some (v, rest3) => some ((k, v), rest3)
      | _ => none

/-- Reads a comma-separated member list up to the closing brace (fuel-bounded). -/
def parseMembers : Nat → List Char → Option (List (String × String) × List Char)
  | 0, _ => none
  | fuel + 1, s =>
      match parsePair s with
      | none => none
      | some (kv, rest) =>
          match skipWs rest with
          | c :: rest2 =>
              if c = ',' then
                match parseMembers fuel rest2 with
                | some (kvs, rest3) => some (kv :: kvs, rest3)
                | none => none
              else if c = rbrace then some ([kv], rest2)
              else none
          | [] => none

/-- `json.loads` restricted to flat objects with string keys and string
values; `none` models a JSONDecodeError (and the non-object results the
extraction never reaches, since it only parses bodies starting with
`'\x7b'`). -/
def parseJsonObj (s : String) : Option (List (String × String)) :=
  match skipWs s.toList with
  | c :: rest =>
      if c = lbrace then
        match skipWs rest with
        | c2 :: rest2 =>
            if c2 = rbrace then
              if (skipWs rest2).isEmpty then some [] else none
            else
              match parseMembers (s.length + 1) (c2 :: rest2) with
              | some (kvs, rest3) =>
                  if (skipWs rest3).isEmpty then some kvs else none
              | none => none
        | [] => none
      else none
  | [] => none

/- ### Orchestrator (`modal_app.solve_ee_problem`, lines 33-137) -/

/-- The `metadata` record of a success envelope (the wall-clock
`total_processing_time` entry is real time and is not modelled). -/
structure EnvelopeMetadata where
  num_relevant_pages : Nat
  has_user_images : Bool
  generated_code : String
deriving DecidableEq, Repr

/-- The dictionary returned by `solve_ee_problem`; keys absent from the
Python dict are `none`. -/
structure Envelope where
  success : Bool
  question : String
  textual_solution : Option String
  circuit_diagram : Option DiagramResult
  error : Option String
  metadata : Option EnvelopeMetadata
deriving DecidableEq, Repr

/-- Behaviour of the external collaborators for one request: the remote
indexing call, the query-scoring forward pass inside `get_top_k_pages`,
the two chat-completion services (given the data the orchestrator passes
them), and the `exec`/`savefig` behaviour inside `run_generated_code`.
Each `Except.error` is an exception propagating out of that stage. -/
structure World (Emb Img : Type) where
  indexPdf : List Nat → Except String (List Emb × List Img)
  score : String → List Emb → Except String (List Int)
  qwen : String → List String → List Img → Except String String
  deepseek : String → String → Except String String
  execCode : String → ExecBehavior

/-- Step 1 (lines 57-61): base64-encode each user image;
`user_images_bytes=None` yields the empty list. -/
def prepImagesB64 (user_images_bytes : Option (List (List Nat))) : List String :=
  match user_images_bytes with
  | none => []
  | some imgs => imgs.map (fun img_bytes => b64encode img_bytes)

/-- `get_top_k_pages` as invoked remotely by the orchestrator: the scoring
forward pass may raise, and any failure is re-raised as "Failed to
retrieve relevant pages: ..." (lines 110-111); on success the pure
selection of `get_top_k_pages` runs. -/
def colpali_top_k {Emb Img : Type} [Inhabited Img]
    (score : String → List Emb → Except String (List Int))
    (query : String) (embs : List Emb) (images : List Img) (k : Nat) :
    Except String (List Img) :=
  match score query embs with
  | Except.error e => Except.error ("Failed to retrieve relevant pages: " ++ e)
  | Except.ok scores => Except.ok (get_top_k_pages scores images k)

/-- The body of the `try` block of `solve_ee_problem` (lines 50-129) as a
fallible computation: indexing, retrieval with `k=3`, Qwen analysis,
DeepSeek code generation, then the diagram compile (whose returned record
is data, not an exception). -/
def pipelineRun {Emb Img : Type} [Inhabited Img] (w : World Emb Img)
    (user_query : String) (pdf_data : List Nat) (user_images_b64 : List String) :
    Except String (String × String × DiagramResult × List Img) := do
  let (pdf_embeddings, pdf_images) ← w.indexPdf pdf_data
  let relevant_pages ← colpali_top_k w.score user_query pdf_embeddings pdf_images 3
  let textual_solution ← w.qwen user_query user_images_b64 relevant_pages
  let circuit_schemdraw ← w.deepseek user_query textual_solution
  let circuit_result := (run_generated_code w.execCode circuit_schemdraw).1
  pure (textual_solution, circuit_schemdraw, circuit_result, relevant_pages)

/-- `modal_app.solve_ee_problem`: the whole body runs inside one
`try/except Exception`; on success it assembles the success envelope
(lines 113-124), on any propagated exception the failure envelope
(lines 133-137) carrying only `error` and `question`. -/
def solve_ee_problem {Emb Img : Type} [Inhabited Img] (w : World Emb Img)
    (user_query : String) (pdf_data : List Nat)
    (user_images_bytes : Option (List (List Nat))) : Envelope :=
  let user_images_b64 := prepImagesB64 user_images_bytes
  match pipelineRun w user_query pdf_data user_images_b64 with
  | Except.ok (textual_solution, circuit_schemdraw, circuit_result, relevant_pages) =>
      { success := true
        question := user_query
        textual_solution := some textual_solution
        circuit_diagram := some circuit_result
        error := none
        metadata := some
          { num_relevant_pages := relevant_pages.length
            has_user_images := decide (user_images_b64.length > 0)
            generated_code := circuit_schemdraw } }
  | Except.error e =>
      { success := false
        question := user_query
        textual_solution := none
        circuit_diagram := none
        error := some e
        metadata := none }

/- ### Gate lemmas -/

theorem healthCheckLoop_first_success (ps : List ProbeResult) (i : Nat) (h : i < ps.length)
    (hbefore : ∀ j (hj : j < i), isSuccess (ps.get ⟨j, Nat.lt_trans hj h⟩) = false)
    (hsucc : isSuccess (ps.get ⟨i, h⟩) = true) :
    (healthCheckLoop ps).outcome = GateOutcome.ready ∧
    (healthCheckLoop ps).attempts = i + 1 := by
  induction ps generalizing i with
  | nil => exact absurd h (Nat.not_lt_zero i)
  | cons p rest ih =>
    cases i with
    | zero =>
      cases p with
      | err => simp [isSuccess] at hsucc
      | status code =>
        have hc : code = 200 := by
          simpa [isSuccess] using hsucc
        subst hc
        simp [healthCheckLoop]
    | succ n =>
      have hp : isSuccess p = false := hbefore 0 (Nat.succ_pos n)
      have hn : n < rest.length := Nat.lt_of_succ_lt_succ h
      have hrest := ih n hn
        (fun j hj => hbefore (j + 1) (Nat.succ_lt_succ hj))
        (by simpa using hsucc)
      cases p with
      | err =>
        cases rest with
        | nil => exact absurd hn (Nat.not_lt_zero n)
        | cons r rs =>
          simp only [healthCheckLoop]
          exact ⟨hrest.1, by omega⟩
      | status code =>
        have hc : ¬ code = 200 := by
          simpa [isSuccess] using hp
        simp only [healthCheckLoop, if_neg hc]
        exact ⟨hrest.1, by omega⟩

theorem healthCheckLoop_no_success (ps : List ProbeResult)
    (hfail : ∀ p ∈ ps, isSuccess p = false) :
    (healthCheckLoop ps).attempts = ps.length ∧
    (healthCheckLoop ps).sleeps = ps.countP (· == ProbeResult.err) ∧
    ((ps.getLast? = some ProbeResult.err →
        (healthCheckLoop ps).outcome = GateOutcome.raisedUnavailable) ∧
     (ps.getLast? ≠ some ProbeResult.err →
        (healthCheckLoop ps).outcome = GateOutcome.fellThrough)) := by
  induction ps with
  | nil => simp [healthCheckLoop]
  | cons p rest ih =>
    have hp : isSuccess p = false := hfail p (List.mem_cons_self p rest)
    have ihrest := ih (fun q hq => hfail q (List.mem_cons_of_mem p hq))
    cases p with
    | err =>
      cases rest with
      | nil =>
        refine ⟨rfl, by decide, fun _ => rfl, fun hlast => absurd rfl hlast⟩
      | cons r rs =>
        simp only [healthCheckLoop]
        refine ⟨by simpa using ihrest.1, ?_, ?_, ?_⟩
        · show (healthCheckLoop (r :: rs)).sleeps + 1 = _
          rw [ihrest.2.1, List.countP_cons]
          simp [List.countP_cons]
        · intro hlast
          rw [List.getLast?_cons_cons] at hlast
          exact ihrest.2.2.1 hlast
        · intro hlast
          rw [List.getLast?_cons_cons] at hlast
          exact ihrest.2.2.2 hlast
    | status code =>
      have hc : ¬ code = 200 := by
        simpa [isSuccess] using hp
      simp only [healthCheckLoop, if_neg hc]
      refine ⟨by simpa using ihrest.1, ?_, ?_, ?_⟩
      · show (healthCheckLoop rest).sleeps = _
        rw [ihrest.2.1, List.countP_cons]
        simp
      · intro hlast
        cases rest with
        | nil => simp at hlast
        | cons r rs =>
          rw [List.getLast?_cons_cons] at hlast
          exact ihrest.2.2.1 hlast
      · intro hlast
        cases rest with
        | nil => simp [healthCheckLoop]
        | cons r rs =>
          rw [List.getLast?_cons_cons] at hlast
          exact ihrest.2.2.2 hlast

theorem get_range_map {α : Type} (f : Nat → α) (m i : Nat)
    (h : i < ((List.range m).map f).length) :
    ((List.range m).map f).get ⟨i, h⟩ = f i := by
  simp

theorem getLast?_range_map {α : Type} (f : Nat → α) (m : Nat) (hm : 0 < m) :
    ((List.range m).map f).getLast? = some (f (m - 1)) := by
  rw [List.getLast?_eq_getElem?]
  have h1 : ((List.range m).map f).length = m := by simp
  rw [h1]
  have h2 : m - 1 < m := Nat.sub_lt hm Nat.one_pos
  simp [List.getElem?_map, h2]

/-- C1 (amended).  For every endpoint behaviour sequence: if the probe first
succeeds on attempt `i ≤ max_attempts` the gate returns success after
exactly `i` attempts and issues no further probes.  If no attempt succeeds,
the gate performs exactly `max_attempts` attempts but sleeps only after the
attempts that raised a transport error (an attempt answered with a
non-success status is retried immediately, with no sleep), and it raises
`ServiceUnavailable` only when the final attempt raised a transport error:
when the final attempt returned a non-success status the loop falls through
without raising and the call proceeds. -/
theorem C1_readiness_gate_amended (probe : Nat → ProbeResult) (m : Nat) :
    (∀ i, i < m → (∀ j, j < i → isSuccess (probe j) = false) →
        isSuccess (probe i) = true →
        (await_ready probe m).outcome = GateOutcome.ready ∧
        (await_ready probe m).attempts = i + 1) ∧
    ((∀ i, i < m → isSuccess (probe i) = false) →
        (await_ready probe m).attempts = m ∧
        (await_ready probe m).sleeps
          = (List.range m).countP (fun i => probe i == ProbeResult.err) ∧
        (0 < m → probe (m - 1) = ProbeResult.err →
            (await_ready probe m).outcome = GateOutcome.raisedUnavailable) ∧
        (0 < m → probe (m - 1) ≠ ProbeResult.err →
            (await_ready probe m).outcome = GateOutcome.fellThrough)) := by
  constructor
  · intro i hi hbefore hsucc
    have hlen : i < ((List.range m).map probe).length := by simpa using hi
    exact healthCheckLoop_first_success ((List.range m).map probe) i hlen
      (fun j hj => by rw [get_range_map]; exact hbefore j hj)
      (by rw [get_range_map]; exact hsucc)
  · intro hfail
    have hmem : ∀ p ∈ (List.range m).map probe, isSuccess p = false := by
      intro p hp
      rcases List.mem_map.mp hp with ⟨i, hi, rfl⟩
      exact hfail i (List.mem_range.mp hi)
    have h := healthCheckLoop_no_success ((List.range m).map probe) hmem
    refine ⟨by simpa using h.1, ?_, ?_, ?_⟩
    · rw [show (await_ready probe m).sleeps = (healthCheckLoop ((List.range m).map probe)).sleeps from rfl,
        h.2.1, List.countP_map]
      rfl
    · intro hm hlast
      exact h.2.2.1 (by rw [getLast?_range_map probe m hm, hlast])
    · intro hm hlast
      refine h.2.2.2 ?_
      rw [getLast?_range_map probe m hm]
      intro hcontra
      exact hlast (Option.some.inj hcontra)

/-- C1 counterexample: an endpoint that answers every probe with HTTP 500
(no transport error) and never succeeds.  With `max_attempts = 2` the gate
does not fail with `ServiceUnavailable` (it falls through) and never
sleeps, refuting "treats every transport error or non-success status as
not yet ready, sleeps backoff_interval between attempts, and fails with
ServiceUnavailable after exactly max_attempts attempts". -/
theorem C1_counterexample :
    ¬ ((await_ready (fun _ => ProbeResult.status 500) 2).outcome
          = GateOutcome.raisedUnavailable ∧
       (await_ready (fun _ => ProbeResult.status 500) 2).sleeps = 1) := by
  decide

/-- Witness for `C1_readiness_gate_amended`: the endpoint errors on the
first probe and succeeds on the second, so the gate succeeds after exactly
2 attempts. -/
theorem C1_witness :
    (await_ready (fun i => if i = 0 then ProbeResult.err else ProbeResult.status 200) 2).outcome
      = GateOutcome.ready ∧
    (await_ready (fun i => if i = 0 then ProbeResult.err else ProbeResult.status 200) 2).attempts
      = 2 :=
  (C1_readiness_gate_amended
      (fun i => if i = 0 then ProbeResult.err else ProbeResult.status 200) 2).1
    1 (by decide)
    (fun j hj => by
      have hj0 : j = 0 := by omega
      subst hj0
      decide)
    (by decide)

/- ### Retrieval-ordering lemmas (claim C3) -/

/-- `scores[i]` (with an irrelevant default for out-of-range). -/
def scoreAt (scores : List Int) (i : Nat) : Int := scores.getD i 0

theorem scoreLE_trans : ∀ a b c : Nat × Int,
    scoreLE a b = true → scoreLE b c = true → scoreLE a c = true := by
  intro a b c hab hbc
  simp only [scoreLE, decide_eq_true_eq] at *
  omega

theorem scoreLE_total : ∀ a b : Nat × Int, (scoreLE a b || scoreLE b a) = true := by
  intro a b
  simp only [scoreLE, Bool.or_eq_true, decide_eq_true_eq]
  omega

theorem pair_sublist_of_get {α : Type} (l : List α) (i j : Nat) (hij : i < j)
    (hj : j < l.length) :
    [l.get ⟨i, Nat.lt_trans hij hj⟩, l.get ⟨j, hj⟩].Sublist l := by
  induction l generalizing i j with
  | nil => exact absurd hj (Nat.not_lt_zero j)
  | cons x xs ih =>
    cases i with
    | zero =>
      cases j with
      | zero => exact absurd hij (Nat.lt_irrefl 0)
      | succ j' =>
        have hj' : j' < xs.length := Nat.lt_of_succ_lt_succ hj
        refine List.Sublist.cons₂ x ?_
        exact List.singleton_sublist.mpr (xs.get_mem j' hj')
    | succ i' =>
      cases j with
      | zero => exact absurd hij (by omega)
      | succ j' =>
        have hij' : i' < j' := Nat.lt_of_succ_lt_succ hij
        have hj' : j' < xs.length := Nat.lt_of_succ_lt_succ hj
        exact List.Sublist.cons x (ih i' j' hij' hj')

theorem enum_nodup (scores : List Int) : scores.enum.Nodup := by
  have h : (scores.enum.map Prod.fst).Nodup := by
    rw [List.enum_map_fst]
    exact List.nodup_range _
  exact h.of_map Prod.fst

theorem topKIndices_length (scores : List Int) (k : Nat) :
    (topKIndices scores k).length = min k scores.length := by
  unfold topKIndices
  rw [List.length_map, List.length_take, List.length_mergeSort, List.enum_length]

theorem mem_topKIndices_lt (scores : List Int) (k : Nat) :
    ∀ i ∈ topKIndices scores k, i < scores.length := by
  intro i hi
  rcases List.mem_map.mp hi with ⟨a, ha, rfl⟩
  have ha2 : a ∈ scores.enum :=
    (List.mergeSort_perm scores.enum scoreLE).subset (List.mem_of_mem_take ha)
  have ha3 : (a.1, a.2) ∈ scores.enum := by rw [Prod.mk.eta]; exact ha2
  exact (List.mem_enum ha3).1

theorem topKIndices_sorted (scores : List Int) (k : Nat)
    (p q : Nat) (hp : p < (topKIndices scores k).length)
    (hq : q < (topKIndices scores k).length) (hpq : p < q) :
    scoreAt scores ((topKIndices scores k).get ⟨q, hq⟩)
      ≤ scoreAt scores ((topKIndices scores k).get ⟨p, hp⟩) ∧
    (scoreAt scores ((topKIndices scores k).get ⟨p, hp⟩)
        = scoreAt scores ((topKIndices scores k).get ⟨q, hq⟩) →
      (topKIndices scores k).get ⟨p, hp⟩ < (topKIndices scores k).get ⟨q, hq⟩) := by
  have hlen := topKIndices_length scores k
  set s := scores.enum.mergeSort scoreLE with hs
  set t := s.take k with ht
  have hT : topKIndices scores k = t.map Prod.fst := rfl
  have htl : t.length = min k s.length := List.length_take k s
  have hsl : s.length = scores.length := by
    rw [hs, List.length_mergeSort, List.enum_length]
  have hp2 : p < t.length := by
    rw [hT, List.length_map] at hp
    exact hp
  have hq2 : q < t.length := by
    rw [hT, List.length_map] at hq
    exact hq
  have hps : p < s.length := by omega
  have hqs : q < s.length := by omega
  have hpk : p < k := by omega
  have hqk : q < k := by omega
  set a := t.get ⟨p, hp2⟩ with hadef
  set b := t.get ⟨q, hq2⟩ with hbdef
  have hgetp : (topKIndices scores k).get ⟨p, hp⟩ = a.1 := by
    rw [hadef]
    simp [hT, List.get_eq_getElem]
  have hgetq : (topKIndices scores k).get ⟨q, hq⟩ = b.1 := by
    rw [hbdef]
    simp [hT, List.get_eq_getElem]
  have hamem : a ∈ scores.enum :=
    (List.mergeSort_perm scores.enum scoreLE).subset
      (List.mem_of_mem_take (t.get_mem _ _))
  have hbmem : b ∈ scores.enum :=
    (List.mergeSort_perm scores.enum scoreLE).subset
      (List.mem_of_mem_take (t.get_mem _ _))
  have hamem2 : (a.1, a.2) ∈ scores.enum := by rw [Prod.mk.eta]; exact hamem
  have hbmem2 : (b.1, b.2) ∈ scores.enum := by rw [Prod.mk.eta]; exact hbmem
  have haLt : a.1 < scores.length := (List.mem_enum hamem2).1
  have hbLt : b.1 < scores.length := (List.mem_enum hbmem2).1
  have haVal := (List.mem_enum hamem2).2
  have hbVal := (List.mem_enum hbmem2).2
  have hascore : scoreAt scores a.1 = a.2 := by
    rw [scoreAt, List.getD_eq_getElem _ _ haLt, ← haVal]
  have hbscore : scoreAt scores b.1 = b.2 := by
    rw [scoreAt, List.getD_eq_getElem _ _ hbLt, ← hbVal]
  have hsorted : List.Pairwise (fun x y => scoreLE x y = true) s :=
    List.sorted_mergeSort scoreLE_trans scoreLE_total scores.enum
  have htpw : List.Pairwise (fun x y => scoreLE x y = true) t :=
    List.Pairwise.sublist (List.take_sublist k s) hsorted
  have hle : scoreLE a b = true :=
    List.pairwise_iff_get.mp htpw ⟨p, hp2⟩ ⟨q, hq2⟩ hpq
  have hba : b.2 ≤ a.2 := by
    simpa [scoreLE] using hle
  constructor
  · rw [hgetp, hgetq, hascore, hbscore]
    exact hba
  · rw [hgetp, hgetq]
    intro heq
    have hval : a.2 = b.2 := by rw [← hascore, ← hbscore]; exact heq
    have hnodup_s : s.Nodup :=
      ((List.mergeSort_perm scores.enum scoreLE).symm).nodup (enum_nodup scores)
    have hnodup_t : t.Nodup := (List.take_sublist k s).nodup hnodup_s
    have hab : a ≠ b := by
      intro hcontra
      have h2 := (hnodup_t.get_inj_iff).mp hcontra
      have hpq2 : p = q := congrArg Fin.val h2
      omega
    have hfst : a.1 ≠ b.1 := by
      intro h1
      exact hab (Prod.ext h1 hval)
    rcases Nat.lt_or_ge a.1 b.1 with hord | hord
    · exact hord
    · exfalso
      have hba2 : b.1 < a.1 := Nat.lt_of_le_of_ne hord (Ne.symm hfst)
      have henl : a.1 < scores.enum.length := by
        rw [List.enum_length]
        exact haLt
      have hgb : scores.enum.get ⟨b.1, Nat.lt_trans hba2 henl⟩ = b := by
        rw [List.get_eq_getElem, List.getElem_enum, ← hbVal, Prod.mk.eta]
      have hga : scores.enum.get ⟨a.1, henl⟩ = a := by
        rw [List.get_eq_getElem, List.getElem_enum, ← haVal, Prod.mk.eta]
      have hpair : [b, a].Sublist scores.enum := by
        have hsub := pair_sublist_of_get scores.enum b.1 a.1 hba2 henl
        rwa [hgb, hga] at hsub
      have hleba : scoreLE b a = true := by
        simp [scoreLE, hval]
      have hpair_s : [b, a].Sublist s :=
        List.pair_sublist_mergeSort scoreLE_trans scoreLE_total hleba hpair
      obtain ⟨is, his, hispw⟩ := List.sublist_eq_map_get hpair_s
      cases is with
      | nil => simp at his
      | cons u is2 =>
        cases is2 with
        | nil => simp at his
        | cons v is3 =>
          cases is3 with
          | cons w is4 => simp at his
          | nil =>
            simp only [List.map_cons, List.map_nil] at his
            have hbu : b = s.get u := by
              injection his with h1 h2
            have hav : a = s.get v := by
              injection his with h1 h2
              injection h2 with h3 h4
            have huv : u < v := by
              simp only [List.pairwise_cons, List.mem_singleton] at hispw
              exact hispw.1 v rfl
            have hta : a = s.get ⟨p, hps⟩ := (List.get_take s hps hpk).symm
            have htb : b = s.get ⟨q, hqs⟩ := (List.get_take s hqs hqk).symm
            have hv : v = ⟨p, hps⟩ :=
              (hnodup_s.get_inj_iff).mp (by rw [← hav, hta])
            have hu : u = ⟨q, hqs⟩ :=
              (hnodup_s.get_inj_iff).mp (by rw [← hbu, htb])
            rw [hu, hv] at huv
            have : q < p := huv
            omega

/-- C3: for a page index of `N` pagesaligned with its score list,
`get_top_k_pages` returns exactly `min k N` page images (so exactly `k`
when `k ≤ N`, exactly `N` when `k > N`, and never more than `k`), the
returned pages are exactly the pages at the selected indices, every
selected index is a valid page, and the selected indices are ordered by
descending similarity score with ties broken by original page order. -/
theorem C3_top_k_returns_sorted {Img : Type} [Inhabited Img]
    (scores : List Int) (images : List Img) (k : Nat)
    (hlen : images.length = scores.length) :
    (get_top_k_pages scores images k).length = min k images.length ∧
    (get_top_k_pages scores images k).length ≤ k ∧
    get_top_k_pages scores images k = (topKIndices scores k).map (fun i => images.get! i) ∧
    (∀ i ∈ topKIndices scores k, i < images.length) ∧
    (∀ p q (hp : p < (topKIndices scores k).length)
        (hq : q < (topKIndices scores k).length), p < q →
        scoreAt scores ((topKIndices scores k).get ⟨q, hq⟩)
            ≤ scoreAt scores ((topKIndices scores k).get ⟨p, hp⟩) ∧
        (scoreAt scores ((topKIndices scores k).get ⟨p, hp⟩)
            = scoreAt scores ((topKIndices scores k).get ⟨q, hq⟩) →
          (topKIndices scores k).get ⟨p, hp⟩ < (topKIndices scores k).get ⟨q, hq⟩)) := by
  have h1 : get_top_k_pages scores images k
      = (topKIndices scores k).map (fun i => images.get! i) := rfl
  refine ⟨?_, ?_, h1, ?_, fun p q hp hq hpq => topKIndices_sorted scores k p q hp hq hpq⟩
  · rw [h1, List.length_map, topKIndices_length, hlen]
  · rw [h1, List.length_map, topKIndices_length]
    omega
  · intro i hi
    rw [hlen]
    exact mem_topKIndices_lt scores k i hi

/-- Witness for `C3_top_k_returns_sorted` at scores `[9, 5]`, pages
`[10, 20]`, `k = 1`. -/
theorem C3_witness :
    ([10, 20] : List Nat).length = ([9, 5] : List Int).length ∧
    (get_top_k_pages [(9 : Int), 5] ([10, 20] : List Nat) 1).length
      = min 1 ([10, 20] : List Nat).length :=
  ⟨by decide, (C3_top_k_returns_sorted [(9 : Int), 5] [10, 20] 1 (by decide)).1⟩

/- ### Indexing lemmas (claim C7) -/

theorem rangeStep_join {Img : Type} (B : Nat) (hB : 0 < B) (l : List Img) :
    ∀ i, ((rangeStepFrom i l.length B).map (fun j => (l.drop j).take B)).flatten
      = l.drop i := by
  have H : ∀ n i, l.length - i ≤ n →
      ((rangeStepFrom i l.length B).map (fun j => (l.drop j).take B)).flatten
        = l.drop i := by
    intro n
    induction n with
    | zero =>
      intro i hle
      have hge : l.length ≤ i := by omega
      unfold rangeStepFrom
      rw [dif_neg (by omega)]
      simp [List.drop_eq_nil_of_le hge]
    | succ n ihn =>
      intro i hle
      by_cases hlt : i < l.length
      · unfold rangeStepFrom
        rw [dif_pos ⟨hlt, hB⟩]
        rw [List.map_cons, List.flatten_cons, ihn (i + B) (by omega)]
        rw [← List.drop_drop, List.take_append_drop]
      · unfold rangeStepFrom
        rw [dif_neg (by omega)]
        simp [List.drop_eq_nil_of_le (Nat.le_of_not_lt hlt)]
  intro i
  exact H (l.length - i) i (Nat.le_refl _)

theorem makeBatches_flatten {Img : Type} (images : List Img) (B : Nat) (hB : 0 < B) :
    (makeBatches images B).flatten = images := by
  unfold makeBatches
  simpa using rangeStep_join B hB images 0

theorem foldl_append_eq_flatten {Img Emb : Type} (embed : List Img → List Emb) :
    ∀ (batches : List (List Img)) (acc : List Emb),
      batches.foldl (fun acc batch => acc ++ embed batch) acc
        = acc ++ (batches.map embed).flatten := by
  intro batches
  induction batches with
  | nil => intro acc; simp
  | cons bt bts ih =>
    intro acc
    simp only [List.foldl_cons, List.map_cons, List.flatten_cons]
    rw [ih, List.append_assoc]

/-- C7: for every document that decodes to the page list `images` and a
batch size `B > 0`, `index_pdf_from_bytes` — despite processing in
batches — returns exactly one embedding per page with order preserved:
the embedding list is the per-page embedding map of the page list, so
the index length equals the page count. -/
theorem C7_index_preserves_pages {Img Emb : Type}
    (convert : List Nat → Except String (List Img)) (embed : List Img → List Emb)
    (embedOne : Img → Emb) (pdf_data : List Nat) (B : Nat) (images : List Img)
    (hB : 0 < B) (hconv : convert pdf_data = Except.ok images)
    (hembed : ∀ batch, embed batch = batch.map embedOne) :
    index_pdf_from_bytes convert embed pdf_data B
      = Except.ok (images.map embedOne, images) ∧
    (images.map embedOne).length = images.length := by
  constructor
  · unfold index_pdf_from_bytes
    rw [hconv]
    dsimp only
    have hbatch : (makeBatches images B).map embed
        = (makeBatches images B).map (List.map embedOne) :=
      List.map_congr_left (fun x _ => hembed x)
    rw [foldl_append_eq_flatten, List.nil_append, hbatch, ← List.map_flatten,
      makeBatches_flatten images B hB]
  · exact List.length_map images embedOne

/-- Witness for `C7_index_preserves_pages`: a 5-page document with batch
size 4 yields the 5 per-page embeddings in order. -/
theorem C7_witness :
    0 < 4 ∧
    index_pdf_from_bytes (fun _ => Except.ok [1, 2, 3, 4, 5])
        (fun bt => bt.map (· * 10)) [0] 4
      = Except.ok ([1, 2, 3, 4, 5].map (· * 10), [1, 2, 3, 4, 5]) :=
  ⟨by decide,
   (C7_index_preserves_pages (fun _ => Except.ok [1, 2, 3, 4, 5])
      (fun bt => bt.map (· * 10)) (· * 10) [0] 4 [1, 2, 3, 4, 5]
      (by decide) rfl (fun _ => rfl)).1⟩


/-- C4: the code-extraction logic applies its fallbacks in the fixed order
(a) JSON object with a `code` key, (b) `python`-tagged fence, (c) any
fence, (d) raw text; in particular the three literal fixtures evaluate to
`x=1`, a successful JSON parse with a `code` key always wins, any failure
of step (a) dispatches to the fence fallback on the raw text, and with no
fence present the raw response text is returned unmodified. -/
theorem C4_extraction_policy :
    extractCode parseJsonObj "\x7b\"code\": \"x=1\"\x7d" = "x=1" ∧
    extractCode parseJsonObj "```python\nx=1\n```" = "x=1" ∧
    extractCode parseJsonObj "x=1" = "x=1" ∧
    (∀ (jsonLoads : String → Option (List (String × String))) (content : String)
        (obj : List (String × String)) (c : String),
        startsWithLBrace (pyStrip content.toList) = true →
        jsonLoads content = some obj → obj.lookup "code" = some c →
        extractCode jsonLoads content = c) ∧
    (∀ (jsonLoads : String → Option (List (String × String))) (content : String),
        (startsWithLBrace (pyStrip content.toList) = false ∨ jsonLoads content = none ∨
          (∃ obj, jsonLoads content = some obj ∧ obj.lookup "code" = none)) →
        extractCode jsonLoads content = String.mk (fenceFallback content.toList)) ∧
    (∀ (jsonLoads : String → Option (List (String × String))) (content : String),
        (startsWithLBrace (pyStrip content.toList) = false ∨ jsonLoads content = none ∨
          (∃ obj, jsonLoads content = some obj ∧ obj.lookup "code" = none)) →
        pyContains content.toList pythonFence = false →
        pyContains content.toList fenceMarker = false →
        extractCode jsonLoads content = content) := by
  have hdispatch : ∀ (jl : String → Option (List (String × String))) (content : String),
      (startsWithLBrace (pyStrip content.toList) = false ∨ jl content = none ∨
        (∃ obj, jl content = some obj ∧ obj.lookup "code" = none)) →
      extractCode jl content = String.mk (fenceFallback content.toList) := by
    intro jl content hfail
    unfold extractCode
    dsimp only
    have hnone : (if startsWithLBrace (pyStrip content.toList) = true then
        match jl content with
        | some json_response => json_response.lookup "code"
        | none => none
      else none) = none := by
      rcases hfail with h | h | ⟨obj, hobj, hcode⟩
      · rw [if_neg (by simp [show startsWithLBrace (pyStrip content.data) = false from h])]
      · by_cases hs : startsWithLBrace (pyStrip content.toList) = true
        · rw [if_pos hs, h]
        · rw [if_neg hs]
      · by_cases hs : startsWithLBrace (pyStrip content.toList) = true
        · rw [if_pos hs, hobj]
          exact hcode
        · rw [if_neg hs]
    rw [hnone]
  refine ⟨by decide, by decide, by decide, ?_, hdispatch, ?_⟩
  · intro jl content obj c h1 h2 h3
    unfold extractCode
    dsimp only
    rw [if_pos h1, h2]
    dsimp only
    rw [h3]
  · intro jl content hfail hpy hfence
    rw [hdispatch jl content hfail]
    have hfb : fenceFallback content.toList = content.toList := by
      unfold fenceFallback
      rw [if_neg (by simp [show pyContains content.data pythonFence = false from hpy]),
        if_neg (by simp [show pyContains content.data fenceMarker = false from hfence])]
    rw [hfb]
    cases content
    rfl

/-- Witness for `C4_extraction_policy` (the JSON-wins conjunct at a
concrete parser and body). -/
theorem C4_witness :
    startsWithLBrace (pyStrip ("\x7b\x7d" : String).toList) = true ∧
    extractCode (fun _ => some [("code", "y")]) "\x7b\x7d" = "y" :=
  ⟨by decide,
   C4_extraction_policy.2.2.2.1 (fun _ => some [("code", "y")]) "\x7b\x7d"
     [("code", "y")] "y" (by decide) rfl (by decide)⟩

/- ### String non-emptiness helpers -/

theorem str_ne_empty_iff (s : String) : s ≠ "" ↔ s.data ≠ [] := by
  constructor
  · intro h hd
    apply h
    cases s with
    | mk data =>
      rw [show data = [] from hd]
  · intro h hc
    exact h (congrArg String.data hc)

theorem str_append_ne_empty (s t : String) (h : s ≠ "") : s ++ t ≠ "" := by
  rw [str_ne_empty_iff] at h ⊢
  rw [String.data_append]
  intro hc
  exact h (List.append_eq_nil.mp hc).1

theorem formatExc_ne_empty (e : PyExn) : formatExc e ≠ "" := by
  unfold formatExc
  exact str_append_ne_empty _ _ (str_append_ne_empty _ _ (by decide))

/-- C5: for every program text and every exec/savefig behaviour (where a
completed save always writes at least one byte), `run_generated_code`
returns exactly one of two disjoint record shapes: on success a record
with `success=true`, a non-empty base64 image, captured stdout and stderr,
and no `error`/`traceback` keys; on an exception a record with
`success=false`, a non-empty error message and non-empty traceback, and
no image and no captured-stream keys. -/
theorem C5_diagram_result_shape (beh : String → ExecBehavior) (code : String)
    (hpng : ∀ out err png figs,
      beh code = ExecBehavior.completes out err png figs → png ≠ []) :
    ((run_generated_code beh code).1.success = true ∧
      (∃ s, (run_generated_code beh code).1.image_base64 = some s ∧ s ≠ "") ∧
      (run_generated_code beh code).1.stdout.isSome = true ∧
      (run_generated_code beh code).1.stderr.isSome = true ∧
      (run_generated_code beh code).1.error = none ∧
      (run_generated_code beh code).1.traceback = none) ∨
    ((run_generated_code beh code).1.success = false ∧
      (∃ msg, (run_generated_code beh code).1.error = some msg ∧ msg ≠ "") ∧
      (∃ tb, (run_generated_code beh code).1.traceback = some tb ∧ tb ≠ "") ∧
      (run_generated_code beh code).1.image_base64 = none ∧
      (run_generated_code beh code).1.stdout = none ∧
      (run_generated_code beh code).1.stderr = none) := by
  cases hb : beh code with
  | completes out err png figs =>
    left
    have hx : (run_generated_code beh code).1 =
        { success := true, image_base64 := some (b64encode png), stdout := some out,
          stderr := some err, error := none, traceback := none, schemdraw_code := code } := by
      unfold run_generated_code
      rw [hb]
    rw [hx]
    exact ⟨rfl, ⟨b64encode png, rfl, b64encode_ne_empty (hpng out err png figs hb)⟩,
      rfl, rfl, rfl, rfl⟩
  | raises e figs =>
    right
    have hx : (run_generated_code beh code).1 =
        { success := false, image_base64 := none, stdout := none, stderr := none,
          error := some ("Error executing schemdraw code: " ++ e.msg),
          traceback := some (formatExc e), schemdraw_code := code } := by
      unfold run_generated_code
      rw [hb]
    rw [hx]
    exact ⟨rfl,
      ⟨"Error executing schemdraw code: " ++ e.msg, rfl, str_append_ne_empty _ _ (by decide)⟩,
      ⟨formatExc e, rfl, formatExc_ne_empty e⟩, rfl, rfl, rfl⟩

/-- Witness for `C5_diagram_result_shape` at a concrete completing
behaviour. -/
theorem C5_witness :
    (((run_generated_code (fun _ => ExecBehavior.completes "out" "" [137] 1) "d.draw()").1.success = true ∧
      (∃ s, (run_generated_code (fun _ => ExecBehavior.completes "out" "" [137] 1) "d.draw()").1.image_base64 = some s ∧ s ≠ "") ∧
      (run_generated_code (fun _ => ExecBehavior.completes "out" "" [137] 1) "d.draw()").1.stdout.isSome = true ∧
      (run_generated_code (fun _ => ExecBehavior.completes "out" "" [137] 1) "d.draw()").1.stderr.isSome = true ∧
      (run_generated_code (fun _ => ExecBehavior.completes "out" "" [137] 1) "d.draw()").1.error = none ∧
      (run_generated_code (fun _ => ExecBehavior.completes "out" "" [137] 1) "d.draw()").1.traceback = none) ∨
    ((run_generated_code (fun _ => ExecBehavior.completes "out" "" [137] 1) "d.draw()").1.success = false ∧
      (∃ msg, (run_generated_code (fun _ => ExecBehavior.completes "out" "" [137] 1) "d.draw()").1.error = some msg ∧ msg ≠ "") ∧
      (∃ tb, (run_generated_code (fun _ => ExecBehavior.completes "out" "" [137] 1) "d.draw()").1.traceback = some tb ∧ tb ≠ "") ∧
      (run_generated_code (fun _ => ExecBehavior.completes "out" "" [137] 1) "d.draw()").1.image_base64 = none ∧
      (run_generated_code (fun _ => ExecBehavior.completes "out" "" [137] 1) "d.draw()").1.stdout = none ∧
      (run_generated_code (fun _ => ExecBehavior.completes "out" "" [137] 1) "d.draw()").1.stderr = none)) :=
  C5_diagram_result_shape (fun _ => ExecBehavior.completes "out" "" [137] 1) "d.draw()"
    (fun out err png figs h => by
      injection h with h1 h2 h3 h4
      rw [← h3]
      decide)

/-- C8: code bug — the spec requires the renderer's global figure state to
be cleared after every compile, success or failure, but `plt.close('all')`
is only executed on the success path; when the generated program raises,
the exception path returns without any `plt.close`, leaking the figures
the program created into the process.  Here: a completing program leaves
0 figures, while a raising program that had created one figure leaves it
alive. -/
theorem C8_figure_state_leak :
    (run_generated_code (fun _ => ExecBehavior.completes "" "" [137] 1) "drawing.draw()").2 = 0 ∧
    (run_generated_code
        (fun _ => ExecBehavior.raises ⟨"ValueError: boom", "  File main, line 1\n"⟩ 1)
        "raise ValueError").2 = 1 ∧
    (1 : Nat) ≠ 0 := by
  exact ⟨rfl, rfl, by decide⟩

/- ### Orchestrator claim theorems -/

theorem pipelineRun_ok {Emb Img : Type} [Inhabited Img] (w : World Emb Img)
    (user_query : String) (pdf_data : List Nat) (b64 : List String)
    (embs : List Emb) (imgs : List Img) (scores : List Int) (sol code : String)
    (hindex : w.indexPdf pdf_data = Except.ok (embs, imgs))
    (hscore : w.score user_query embs = Except.ok scores)
    (hqwen : w.qwen user_query b64 (get_top_k_pages scores imgs 3) = Except.ok sol)
    (hdeepseek : w.deepseek user_query sol = Except.ok code) :
    pipelineRun w user_query pdf_data b64 =
      Except.ok (sol, code, (run_generated_code w.execCode code).1,
        get_top_k_pages scores imgs 3) := by
  simp only [pipelineRun, colpali_top_k, hindex, hscore, hqwen, hdeepseek,
    Bind.bind, Except.bind, pure, Except.pure]

/-- C2: the orchestrator never propagates an exception (it is a total
function of the request and the world), and whenever any of the stages
before the final response assembly raises, the returned envelope is
exactly the failure record: `success=false`, the original question, the
triggering error message, and no solution, diagram or metadata keys. -/
theorem C2_failure_envelope {Emb Img : Type} [Inhabited Img] (w : World Emb Img)
    (user_query : String) (pdf_data : List Nat)
    (user_images_bytes : Option (List (List Nat))) (e : String)
    (herr : pipelineRun w user_query pdf_data (prepImagesB64 user_images_bytes)
      = Except.error e) :
    solve_ee_problem w user_query pdf_data user_images_bytes =
      { success := false, question := user_query, textual_solution := none,
        circuit_diagram := none, error := some e, metadata := none } := by
  unfold solve_ee_problem
  dsimp only
  rw [herr]

/-- A request world whose document decoding stage raises. -/
def wFail : World Nat Nat :=
  { indexPdf := fun _ => Except.error "Failed to process PDF: bad document"
    score := fun _ _ => Except.ok []
    qwen := fun _ _ _ => Except.ok ""
    deepseek := fun _ _ => Except.ok ""
    execCode := fun _ => ExecBehavior.completes "" "" [0] 0 }

/-- Witness for `C2_failure_envelope`: a world whose indexing stage
raises produces exactly the failure envelope. -/
theorem C2_witness :
    pipelineRun wFail "q" [] (prepImagesB64 none)
      = Except.error "Failed to process PDF: bad document" ∧
    solve_ee_problem wFail "q" [] none =
      { success := false, question := "q", textual_solution := none,
        circuit_diagram := none, error := some "Failed to process PDF: bad document",
        metadata := none } :=
  ⟨rfl, C2_failure_envelope wFail "q" [] none "Failed to process PDF: bad document" rfl⟩

/-- C6: a diagram-compile failure is non-fatal — when indexing, scoring,
reasoning and code generation all succeed and only the generated program's
execution raises, the envelope still has `success=true` and carries the
solution text, while a `success=false` diagram record with a non-empty
traceback is nested inside the diagram field. -/
theorem C6_diagram_failure_nonfatal {Emb Img : Type} [Inhabited Img] (w : World Emb Img)
    (user_query : String) (pdf_data : List Nat)
    (user_images_bytes : Option (List (List Nat)))
    (embs : List Emb) (imgs : List Img) (scores : List Int) (sol code : String)
    (ex : PyExn) (figs : Nat)
    (hindex : w.indexPdf pdf_data = Except.ok (embs, imgs))
    (hscore : w.score user_query embs = Except.ok scores)
    (hqwen : w.qwen user_query (prepImagesB64 user_images_bytes)
      (get_top_k_pages scores imgs 3) = Except.ok sol)
    (hdeepseek : w.deepseek user_query sol = Except.ok code)
    (hexec : w.execCode code = ExecBehavior.raises ex figs) :
    (solve_ee_problem w user_query pdf_data user_images_bytes).success = true ∧
    (solve_ee_problem w user_query pdf_data user_images_bytes).textual_solution
      = some sol ∧
    (solve_ee_problem w user_query pdf_data user_images_bytes).circuit_diagram = some
      { success := false, image_base64 := none, stdout := none, stderr := none,
        error := some ("Error executing schemdraw code: " ++ ex.msg),
        traceback := some (formatExc ex), schemdraw_code := code } ∧
    formatExc ex ≠ "" := by
  have hdiag : (run_generated_code w.execCode code).1 =
      { success := false, image_base64 := none, stdout := none, stderr := none,
        error := some ("Error executing schemdraw code: " ++ ex.msg),
        traceback := some (formatExc ex), schemdraw_code := code } := by
    unfold run_generated_code
    rw [hexec]
  have henv : solve_ee_problem w user_query pdf_data user_images_bytes =
      { success := true, question := user_query, textual_solution := some sol,
        circuit_diagram := some (run_generated_code w.execCode code).1, error := none,
        metadata := some
          { num_relevant_pages := (get_top_k_pages scores imgs 3).length,
            has_user_images := decide ((prepImagesB64 user_images_bytes).length > 0),
            generated_code := code } } := by
    unfold solve_ee_problem
    dsimp only
    rw [pipelineRun_ok w user_query pdf_data (prepImagesB64 user_images_bytes)
      embs imgs scores sol code hindex hscore hqwen hdeepseek]
  rw [henv, hdiag]
  exact ⟨rfl, rfl, rfl, formatExc_ne_empty ex⟩

/-- A request world where every stage succeeds but the generated program
raises during execution. -/
def wDiagFail : World Nat Nat :=
  { indexPdf := fun _ => Except.ok ([7], [42])
    score := fun _ _ => Except.ok [5]
    qwen := fun _ _ _ => Except.ok "the solution"
    deepseek := fun _ _ => Except.ok "bad code"
    execCode := fun _ => ExecBehavior.raises ⟨"NameError: x", "  line 1\n"⟩ 1 }

/-- Witness for `C6_diagram_failure_nonfatal` at a concrete world. -/
theorem C6_witness :
    (solve_ee_problem wDiagFail "q" [] none).success = true ∧
    (solve_ee_problem wDiagFail "q" [] none).textual_solution = some "the solution" ∧
    (solve_ee_problem wDiagFail "q" [] none).circuit_diagram = some
      { success := false, image_base64 := none, stdout := none, stderr := none,
        error := some ("Error executing schemdraw code: " ++
          (PyExn.mk "NameError: x" "  line 1\n").msg),
        traceback := some (formatExc ⟨"NameError: x", "  line 1\n"⟩),
        schemdraw_code := "bad code" } ∧
    formatExc ⟨"NameError: x", "  line 1\n"⟩ ≠ "" :=
  C6_diagram_failure_nonfatal wDiagFail "q" [] none [7] [42] [5] "the solution"
    "bad code" ⟨"NameError: x", "  line 1\n"⟩ 1 rfl rfl rfl rfl rfl

/-- C10 (implicit): whenever the orchestrator returns a failure envelope,
that envelope also carries the original question text verbatim under the
`question` key, in addition to the error message. -/
theorem C10_failure_envelope_question {Emb Img : Type} [Inhabited Img]
    (w : World Emb Img) (user_query : String) (pdf_data : List Nat)
    (user_images_bytes : Option (List (List Nat)))
    (hfail : (solve_ee_problem w user_query pdf_data user_images_bytes).success = false) :
    (solve_ee_problem w user_query pdf_data user_images_bytes).question = user_query ∧
    (solve_ee_problem w user_query pdf_data user_images_bytes).error.isSome = true := by
  unfold solve_ee_problem at hfail ⊢
  dsimp only at hfail ⊢
  cases hpip : pipelineRun w user_query pdf_data (prepImagesB64 user_images_bytes) with
  | ok val =>
    obtain ⟨sol, code, diag, rel⟩ := val
    rw [hpip] at hfail
    simp at hfail
  | error e =>
    exact ⟨rfl, rfl⟩

/-- Witness for `C10_failure_envelope_question` at the failing world. -/
theorem C10_witness :
    (solve_ee_problem wFail "q" [] none).question = "q" ∧
    (solve_ee_problem wFail "q" [] none).error.isSome = true :=
  C10_failure_envelope_question wFail "q" [] none rfl

/- ### Reasoning-stage lemmas (claim C9) -/

theorem foldl_append_map {α β : Type} (f : α → β) :
    ∀ (l : List α) (acc : List β),
      l.foldl (fun a x => a ++ [f x]) acc = acc ++ l.map f := by
  intro l
  induction l with
  | nil => intro acc; simp
  | cons x xs ih =>
    intro acc
    simp only [List.foldl_cons, List.map_cons]
    rw [ih, List.append_assoc]
    rfl

theorem foldl_append_filter_map {α β : Type} (p : α → Bool) (f : α → β) :
    ∀ (l : List α), (∀ x ∈ l, p x = true) →
      ∀ acc, l.foldl (fun a x => if p x then a ++ [f x] else a) acc = acc ++ l.map f := by
  intro l
  induction l with
  | nil => intro _ acc; simp
  | cons x xs ih =>
    intro hall acc
    have hx : p x = true := hall x (List.mem_cons_self x xs)
    simp only [List.foldl_cons, List.map_cons, hx, if_pos]
    rw [ih (fun y hy => hall y (List.mem_cons_of_mem x hy)), List.append_assoc]
    rfl

/-- C9: for every query, user-image list and context-page list (each
context page a PIL page image), the reasoning stage builds one multi-part
message whose parts appear in the order: instruction preamble with the
question text, then each user image as an inline image attachment, then —
only when the context-page list is non-empty — the labeled separator
followed by each context page as an inline image attachment; and it
returns the first completion choice's text verbatim. -/
theorem C9_reasoning_message_order (probes : List ProbeResult)
    (complete : List MsgPart → List String) (instructions user_query : String)
    (user_images_b64 : List String) (context_images : List CtxImage)
    (hpil : ∀ img ∈ context_images, img.hasSave = true)
    (hgate : (healthCheckLoop probes).outcome ≠ GateOutcome.raisedUnavailable)
    (c : String) (rest : List String)
    (hresp : complete (buildContent instructions user_query user_images_b64 context_images)
      = c :: rest) :
    buildContent instructions user_query user_images_b64 context_images =
      MsgPart.text (instructions ++ "\n\nQuestion: " ++ user_query) ::
        (user_images_b64.map
            (fun img_b64 => MsgPart.imageUrl ("data:image/png;base64," ++ img_b64)) ++
         (if context_images.isEmpty then []
          else MsgPart.text "\n\nRelevant textbook pages for reference:" ::
            context_images.map
              (fun img => MsgPart.imageUrl ("data:image/png;base64," ++ img.pngB64)))) ∧
    analyze_question_with_qwen_url probes complete instructions user_query
      user_images_b64 context_images = Except.ok c := by
  have hbc : buildContent instructions user_query user_images_b64 context_images =
      MsgPart.text (instructions ++ "\n\nQuestion: " ++ user_query) ::
        (user_images_b64.map
            (fun img_b64 => MsgPart.imageUrl ("data:image/png;base64," ++ img_b64)) ++
         (if context_images.isEmpty then []
          else MsgPart.text "\n\nRelevant textbook pages for reference:" ::
            context_images.map
              (fun img => MsgPart.imageUrl ("data:image/png;base64," ++ img.pngB64)))) := by
    unfold buildContent
    dsimp only
    rw [foldl_append_map]
    by_cases hemp : context_images.isEmpty
    · rw [if_pos hemp, if_pos hemp]
      simp
    · rw [if_neg hemp, if_neg hemp]
      rw [foldl_append_filter_map CtxImage.hasSave _ context_images hpil]
      simp [List.append_assoc]
  refine ⟨hbc, ?_⟩
  unfold analyze_question_with_qwen_url
  rw [if_neg hgate, hresp]

/-- Witness for `C9_reasoning_message_order` at one user image, one PIL
context page, a ready endpoint and a singleton choice list. -/
theorem C9_witness :
    buildContent "INSTR" "q" ["AAA"] [⟨"BBB", true⟩] =
      MsgPart.text ("INSTR" ++ "\n\nQuestion: " ++ "q") ::
        (["AAA"].map
            (fun img_b64 => MsgPart.imageUrl ("data:image/png;base64," ++ img_b64)) ++
         (if ([⟨"BBB", true⟩] : List CtxImage).isEmpty then []
          else MsgPart.text "\n\nRelevant textbook pages for reference:" ::
            ([⟨"BBB", true⟩] : List CtxImage).map
              (fun img => MsgPart.imageUrl ("data:image/png;base64," ++ img.pngB64)))) ∧
    analyze_question_with_qwen_url [ProbeResult.status 200] (fun _ => ["answer"])
      "INSTR" "q" ["AAA"] [⟨"BBB", true⟩] = Except.ok "answer" :=
  C9_reasoning_message_order [ProbeResult.status 200] (fun _ => ["answer"])
    "INSTR" "q" ["AAA"] [⟨"BBB", true⟩]
    (fun img hmem => by
      rcases List.mem_singleton.mp hmem with rfl
      rfl)
    (by decide) "answer" [] rfl
